import Mathlib

/-!
Verification of the 454hex2dfu conversion tool (src/tools/454hex2dfu.c).

The tool converts a PIC16F1454 Intel HEX file into a DFU binary image.
This development is a shallow embedding of the program over Nat:
bytes and C unsigned values are Nat, the image buffer is a function
from byte offset to byte value, and a text line read by fgets is a
function from character offset to character code (the C code indexes
the 256-byte line buffer with plain pointer arithmetic, so a line is
modelled as a total function with 0 beyond the supplied characters,
together with a ghost log of the offsets actually read).

Machine arithmetic: every C unsigned operation performed by the
program stays far below 2^32 except the shift accumulator of readhex,
which is reduced modulo 2^32 exactly as the 32-bit unsigned C
variable is.  All other operations (shift right, xor with a constant,
masking) cannot overflow, so plain Nat coincides with C unsigned.
-/

/-! Constants, from the defines of 454hex2dfu.c. -/

def PM_SIZE_IN_BYTES : Nat := 16384

def CODE_OFFSET_ADDRESS : Nat := 0x200

def HIGH_ENDURANCE_ADDRESS : Nat := 0x1F80

def DFU_SUFFIX : Nat := 16

def USB_PRODUCT_ID : Nat := 0x0001

def USB_VENDOR_ID : Nat := 0x1234

/-! The hex reader, from readhex of 454hex2dfu.c.  A line is a function
from offset to character code; readhex starts at offset pos and
consumes digits characters.  Characters outside 0-9, A-F, a-f add
nothing (the C code falls through all three else-if branches). -/

def readhexAux (l : Nat → Nat) : Nat → Nat → Nat → Nat
  | _, 0, result => result
  | pos, digits+1, result =>
      let c := l pos
      let r1 := (result <<< 4) % 4294967296
      let r2 :=
        if 0x30 ≤ c ∧ c ≤ 0x39 then r1 + (c - 0x30)
        else if 0x41 ≤ c ∧ c ≤ 0x46 then r1 + (10 + c - 0x41)
        else if 0x61 ≤ c ∧ c ≤ 0x66 then r1 + (10 + c - 0x61)
        else r1
      readhexAux l (pos+1) digits r2

def readhex (l : Nat → Nat) (pos digits : Nat) : Nat := readhexAux l pos digits 0

/-! The modified CRC-14, from calc_modified_crc14 of 454hex2dfu.c:
16 iterations of shift and conditional xor with 0x23B1. -/

def crc14Iter : Nat → Nat → Nat → Nat
  | 0, _, crc => crc
  | n+1, data, crc =>
      let bit := (data &&& 0x0001) ^^^ (crc &&& 0x0001)
      let crc1 := crc >>> 1
      let crc2 := if bit ≠ 0 then crc1 ^^^ 0x23B1 else crc1
      crc14Iter n (data >>> 1) crc2

def calc_modified_crc14 (data crc : Nat) : Nat := crc14Iter 16 data crc

/-- Modelled from the spec: the per-word iteration exactly as the spec
sentence orders it (bit, shift crc, shift data, conditional xor), to be
compared with calc_modified_crc14 from the source. -/
def crc14SpecIter : Nat → Nat → Nat → Nat
  | 0, _, crc => crc
  | n+1, data, crc =>
      let bit := (data &&& 1) ^^^ (crc &&& 1)
      let crc1 := crc >>> 1
      let data1 := data >>> 1
      let crc2 := if bit ≠ 0 then crc1 ^^^ 0x23B1 else crc1
      crc14SpecIter n data1 crc2

/-- The erased-flash sentinel fill: 0xFF at even offsets, 0x3F at odd
offsets, from the initialization loop of main. -/
def sentinelByte (a : Nat) : Nat := if a % 2 = 0 then 0xFF else 0x3F

/-- Pointwise buffer write, used to model an assignment image[i] = v. -/
def wr (g : Nat → Nat) (i v : Nat) : Nat → Nat := fun j => if j = i then v else g j

/-! The CRC-14 accumulation loop of main, which starts at byte address
CODE_OFFSET_ADDRESS << 1 = 0x400 and folds one 16-bit little-endian
word per 2-byte step.  crc14Fold is the accumulation part with an
explicit iteration count. -/

def crc14Fold (image : Nat → Nat) : Nat → Nat → Nat → Nat
  | _, crc, 0 => crc
  | addr, crc, n+1 =>
      crc14Fold image (addr + 2)
        (calc_modified_crc14 (image addr + (image (addr + 1) <<< 8)) crc) n

/-- A computation-oriented restatement of crc14Fold that forces the
accumulator to a numeral at every step (by matching it against the Nat
constructors), so that concrete instances reduce with constant stack
depth; proved equal to crc14Fold below. -/
def crc14FoldF (image : Nat → Nat) : Nat → Nat → Nat → Nat
  | _, crc, 0 => crc
  | addr, crc, n+1 =>
      match calc_modified_crc14 (image addr + (image (addr + 1) <<< 8)) crc with
      | 0 => crc14FoldF image (addr + 2) 0 n
      | m+1 => crc14FoldF image (addr + 2) (m + 1) n

/-- The complete CRC-14 pass of main: the for loop that accumulates
words until next_address reaches HIGH_ENDURANCE_ADDRESS << 1 = 0x3F00,
then checks the storage position against the sentinel pair, writes the
crc there low byte first, and stops.  The C loop is an unbounded for
loop that terminates through its break; it is embedded with a fuel
argument large enough for the break to be reached (shown by
crcLoop_run below, the result does not depend on the fuel once the
fuel exceeds the 7551 accumulation steps).  Result: the image after
the write, the crc_overlap flag, and the final crc register. -/
def crcLoop (image : Nat → Nat) : Nat → Nat → Nat → ((Nat → Nat) × Bool × Nat)
  | _, crc, 0 => (image, false, crc)
  | addr, crc, fuel+1 =>
      if addr + 2 = HIGH_ENDURANCE_ADDRESS <<< 1 then
        let overlap := decide (image addr ≠ 0xFF ∨ image (addr + 1) ≠ 0x3F)
        let image1 := wr (wr image addr (crc &&& 0x00FF)) (addr + 1) ((crc &&& 0xFF00) >>> 8)
        (image1, overlap, crc)
      else
        crcLoop image (addr + 2)
          (calc_modified_crc14 (image addr + (image (addr + 1) <<< 8)) crc) fuel

def crc14Pass (image : Nat → Nat) : (Nat → Nat) × Bool × Nat :=
  crcLoop image (CODE_OFFSET_ADDRESS <<< 1) 0 8000

/-! The record reader and image builder of main.  A session state holds
the image buffer, the out_of_bounds flag and the upper_address
extension, together with two ghost logs recording the byte offsets the
data-record loop writes in the image buffer and the character offsets
it reads in the 256-byte line buffer (the C code performs these
accesses with no bound check; the logs make the accessed offsets
available to the safety claims). -/

structure St where
  image : Nat → Nat
  out_of_bounds : Bool
  upper_address : Nat
  writeLog : List Nat
  readLog : List Nat

/-- The payload loop of a data record (while count-- in main): for each
payload byte at running address addr, below 0x400 or at/above 0x8000
only the out_of_bounds flag is set; otherwise the two hex digits at
line offsets pos, pos+1 are decoded and stored at image[addr]. -/
def dataLoop (l : Nat → Nat) : Nat → Nat → Nat → St → St
  | _, _, 0, st => st
  | addr, pos, count+1, st =>
      if addr < 0x400 ∨ 0x8000 ≤ addr then
        dataLoop l (addr + 1) (pos + 2) count { st with out_of_bounds := true }
      else
        dataLoop l (addr + 1) (pos + 2) count
          { st with image := wr st.image addr (readhex l pos 2),
                    writeLog := addr :: st.writeLog,
                    readLog := pos :: (pos + 1) :: st.readLog }

/-- Processing of one fgets line by main: lines not starting with a
colon (0x3A) are skipped; otherwise the byte count is read at offset 1
and the address at offset 3, and the record type characters at offsets
7 and 8 are compared: a 00 record is a data record only while
upper_address is zero, an 04 record replaces upper_address with the
four hex digits at offset 9, an 01 record stops the reader (second
component true), everything else is ignored. -/
def applyLine (st : St) (l : Nat → Nat) : St × Bool :=
  if l 0 = 0x3A then
    let count := readhex l 1 2
    let address := readhex l 3 4
    if l 7 = 0x30 ∧ l 8 = 0x30 ∧ st.upper_address = 0 then
      (dataLoop l address 9 count st, false)
    else if l 7 = 0x30 ∧ l 8 = 0x34 then
      ({ st with upper_address := readhex l 9 4 }, false)
    else if l 7 = 0x30 ∧ l 8 = 0x31 then
      (st, true)
    else
      (st, false)
  else
    (st, false)

/-- The reading loop of main over the sequence of input lines, stopping
at an end-of-file record. -/
def processLines : List (Nat → Nat) → St → St
  | [], st => st
  | l :: ls, st =>
      match applyLine st l with
      | (st1, true) => st1
      | (st1, false) => processLines ls st1

/-- The initial image: the first PM_SIZE_IN_BYTES bytes are filled with
the erased sentinel pattern by the initialization loop of main; the
16 suffix bytes of the malloc block are not initialized there (they
are modelled as 0; the program writes all of them before reading
them). -/
def image0 : Nat → Nat := fun a => if a < PM_SIZE_IN_BYTES then sentinelByte a else 0

def initSt : St :=
  { image := image0, out_of_bounds := false, upper_address := 0,
    writeLog := [], readLog := [] }

/-- The builder state after consuming the whole input. -/
def builderSt (input : List (Nat → Nat)) : St := processLines input initSt

/-- A line buffer holding the given character codes, 0 from there on. -/
def lineBuf (bytes : List Nat) : Nat → Nat := fun i => bytes.getD i 0

/-! The CRC-32 engine, from crc32_table and crc32_calc of
454hex2dfu.c. -/

def crc32_table : List Nat := [
  0x00000000, 0x77073096, 0xEE0E612C, 0x990951BA,
  0x076DC419, 0x706AF48F, 0xE963A535, 0x9E6495A3,
  0x0EDB8832, 0x79DCB8A4, 0xE0D5E91E, 0x97D2D988,
  0x09B64C2B, 0x7EB17CBD, 0xE7B82D07, 0x90BF1D91,
  0x1DB71064, 0x6AB020F2, 0xF3B97148, 0x84BE41DE,
  0x1ADAD47D, 0x6DDDE4EB, 0xF4D4B551, 0x83D385C7,
  0x136C9856, 0x646BA8C0, 0xFD62F97A, 0x8A65C9EC,
  0x14015C4F, 0x63066CD9, 0xFA0F3D63, 0x8D080DF5,
  0x3B6E20C8, 0x4C69105E, 0xD56041E4, 0xA2677172,
  0x3C03E4D1, 0x4B04D447, 0xD20D85FD, 0xA50AB56B,
  0x35B5A8FA, 0x42B2986C, 0xDBBBC9D6, 0xACBCF940,
  0x32D86CE3, 0x45DF5C75, 0xDCD60DCF, 0xABD13D59,
  0x26D930AC, 0x51DE003A, 0xC8D75180, 0xBFD06116,
  0x21B4F4B5, 0x56B3C423, 0xCFBA9599, 0xB8BDA50F,
  0x2802B89E, 0x5F058808, 0xC60CD9B2, 0xB10BE924,
  0x2F6F7C87, 0x58684C11, 0xC1611DAB, 0xB6662D3D,
  0x76DC4190, 0x01DB7106, 0x98D220BC, 0xEFD5102A,
  0x71B18589, 0x06B6B51F, 0x9FBFE4A5, 0xE8B8D433,
  0x7807C9A2, 0x0F00F934, 0x9609A88E, 0xE10E9818,
  0x7F6A0DBB, 0x086D3D2D, 0x91646C97, 0xE6635C01,
  0x6B6B51F4, 0x1C6C6162, 0x856530D8, 0xF262004E,
  0x6C0695ED, 0x1B01A57B, 0x8208F4C1, 0xF50FC457,
  0x65B0D9C6, 0x12B7E950, 0x8BBEB8EA, 0xFCB9887C,
  0x62DD1DDF, 0x15DA2D49, 0x8CD37CF3, 0xFBD44C65,
  0x4DB26158, 0x3AB551CE, 0xA3BC0074, 0xD4BB30E2,
  0x4ADFA541, 0x3DD895D7, 0xA4D1C46D, 0xD3D6F4FB,
  0x4369E96A, 0x346ED9FC, 0xAD678846, 0xDA60B8D0,
  0x44042D73, 0x33031DE5, 0xAA0A4C5F, 0xDD0D7CC9,
  0x5005713C, 0x270241AA, 0xBE0B1010, 0xC90C2086,
  0x5768B525, 0x206F85B3, 0xB966D409, 0xCE61E49F,
  0x5EDEF90E, 0x29D9C998, 0xB0D09822, 0xC7D7A8B4,
  0x59B33D17, 0x2EB40D81, 0xB7BD5C3B, 0xC0BA6CAD,
  0xEDB88320, 0x9ABFB3B6, 0x03B6E20C, 0x74B1D29A,
  0xEAD54739, 0x9DD277AF, 0x04DB2615, 0x73DC1683,
  0xE3630B12, 0x94643B84, 0x0D6D6A3E, 0x7A6A5AA8,
  0xE40ECF0B, 0x9309FF9D, 0x0A00AE27, 0x7D079EB1,
  0xF00F9344, 0x8708A3D2, 0x1E01F268, 0x6906C2FE,
  0xF762575D, 0x806567CB, 0x196C3671, 0x6E6B06E7,
  0xFED41B76, 0x89D32BE0, 0x10DA7A5A, 0x67DD4ACC,
  0xF9B9DF6F, 0x8EBEEFF9, 0x17B7BE43, 0x60B08ED5,
  0xD6D6A3E8, 0xA1D1937E, 0x38D8C2C4, 0x4FDFF252,
  0xD1BB67F1, 0xA6BC5767, 0x3FB506DD, 0x48B2364B,
  0xD80D2BDA, 0xAF0A1B4C, 0x36034AF6, 0x41047A60,
  0xDF60EFC3, 0xA867DF55, 0x316E8EEF, 0x4669BE79,
  0xCB61B38C, 0xBC66831A, 0x256FD2A0, 0x5268E236,
  0xCC0C7795, 0xBB0B4703, 0x220216B9, 0x5505262F,
  0xC5BA3BBE, 0xB2BD0B28, 0x2BB45A92, 0x5CB36A04,
  0xC2D7FFA7, 0xB5D0CF31, 0x2CD99E8B, 0x5BDEAE1D,
  0x9B64C2B0, 0xEC63F226, 0x756AA39C, 0x026D930A,
  0x9C0906A9, 0xEB0E363F, 0x72076785, 0x05005713,
  0x95BF4A82, 0xE2B87A14, 0x7BB12BAE, 0x0CB61B38,
  0x92D28E9B, 0xE5D5BE0D, 0x7CDCEFB7, 0x0BDBDF21,
  0x86D3D2D4, 0xF1D4E242, 0x68DDB3F8, 0x1FDA836E,
  0x81BE16CD, 0xF6B9265B, 0x6FB077E1, 0x18B74777,
  0x88085AE6, 0xFF0F6A70, 0x66063BCA, 0x11010B5C,
  0x8F659EFF, 0xF862AE69, 0x616BFFD3, 0x166CCF45,
  0xA00AE278, 0xD70DD2EE, 0x4E048354, 0x3903B3C2,
  0xA7672661, 0xD06016F7, 0x4969474D, 0x3E6E77DB,
  0xAED16A4A, 0xD9D65ADC, 0x40DF0B66, 0x37D83BF0,
  0xA9BCAE53, 0xDEBB9EC5, 0x47B2CF7F, 0x30B5FFE9,
  0xBDBDF21C, 0xCABAC28A, 0x53B39330, 0x24B4A3A6,
  0xBAD03605, 0xCDD70693, 0x54DE5729, 0x23D967BF,
  0xB3667A2E, 0xC4614AB8, 0x5D681B02, 0x2A6F2B94,
  0xB40BBE37, 0xC30C8EA1, 0x5A05DF1B, 0x2D02EF8D]

/-- One step of crc32_calc: table lookup on the low byte of crc xor
data byte, xored with the register shifted right 8. -/
def crc32_step (crc b : Nat) : Nat :=
  crc32_table.getD ((crc ^^^ b) &&& 0xFF) 0 ^^^ (crc >>> 8)

/-- crc32_calc of 454hex2dfu.c over a byte list. -/
def crc32_calc (crc : Nat) : List Nat → Nat
  | [] => crc
  | b :: rest => crc32_calc (crc32_step crc b) rest

/-- Modelled from the spec: one bit of the reflected IEEE 802.3 CRC-32
(polynomial 0xEDB88320): shift right, xor the polynomial in when the
low bit was set. -/
def crcBit (crc : Nat) : Nat :=
  if crc &&& 1 = 1 then (crc >>> 1) ^^^ 0xEDB88320 else crc >>> 1

def crcBitN : Nat → Nat → Nat
  | 0, crc => crc
  | n+1, crc => crcBitN n (crcBit crc)

/-- Modelled from the spec: the bitwise reflected-polynomial byte step
of CRC-32 (xor the byte into the low bits of the register, then run
8 bit steps), to be compared with the table-driven crc32_step. -/
def crc32_bit_byte (crc b : Nat) : Nat := crcBitN 8 (crc ^^^ b)

/-! The output phase of main. -/

/-- The first n bytes of a buffer, as passed to crc32_calc and
fwrite. -/
def byteList (f : Nat → Nat) (n : Nat) : List Nat := (List.range n).map f

/-- The twelve fixed suffix bytes written at image offsets 16384..16395
(bcdDevice, idProduct, idVendor, bcdDFU, ucDfuSignature, bLength),
with the shift-and-mask expressions of the source. -/
def suffix12 (image : Nat → Nat) : Nat → Nat :=
  wr (wr (wr (wr (wr (wr (wr (wr (wr (wr (wr (wr image
    (PM_SIZE_IN_BYTES + 0) 0xFF)
    (PM_SIZE_IN_BYTES + 1) 0xFF)
    (PM_SIZE_IN_BYTES + 2) ((USB_PRODUCT_ID &&& 0x00FF) >>> 0))
    (PM_SIZE_IN_BYTES + 3) ((USB_PRODUCT_ID &&& 0xFF00) >>> 8))
    (PM_SIZE_IN_BYTES + 4) ((USB_VENDOR_ID &&& 0x00FF) >>> 0))
    (PM_SIZE_IN_BYTES + 5) ((USB_VENDOR_ID &&& 0xFF00) >>> 8))
    (PM_SIZE_IN_BYTES + 6) 0x00)
    (PM_SIZE_IN_BYTES + 7) 0x01)
    (PM_SIZE_IN_BYTES + 8) 0x55)
    (PM_SIZE_IN_BYTES + 9) 0x46)
    (PM_SIZE_IN_BYTES + 10) 0x44)
    (PM_SIZE_IN_BYTES + 11) DFU_SUFFIX

/-- The four dwCRC bytes written at image offsets 16396..16399, little
endian, with the shift-and-mask expressions of the source. -/
def suffixCrc (image : Nat → Nat) (crc : Nat) : Nat → Nat :=
  wr (wr (wr (wr image
    (PM_SIZE_IN_BYTES + 12) ((crc &&& 0x000000FF) >>> 0))
    (PM_SIZE_IN_BYTES + 13) ((crc &&& 0x0000FF00) >>> 8))
    (PM_SIZE_IN_BYTES + 14) ((crc &&& 0x00FF0000) >>> 16))
    (PM_SIZE_IN_BYTES + 15) ((crc &&& 0xFF000000) >>> 24)

def OUT_OF_BOUNDS_MSG : String :=
  "ERROR: supplied input file is faulty and used out-of-bounds addresses"

def CRC_OVERLAP_MSG : String :=
  "ERROR: CRC address was occupied; app is in conflict with bootloader"

/-- Observable outcome of one run of the program (with both file opens
and the allocation succeeding): whether a file was created at the
output path, the bytes passed to fwrite if the write phase was
reached, the diagnostics printed to standard error, and the process
exit code. -/
structure RunResult where
  fileCreated : Bool
  written : Option (List Nat)
  stderrLines : List String
  exitCode : Int

/-- The whole conversion, following main: the output file is opened
with mode wb (created or truncated to empty) before any line is
parsed, so fileCreated is true on every path modelled here.  After the
reading pass, an out_of_bounds flag aborts before the CRC-14 pass; a
crc_overlap flag aborts before the suffix is built; otherwise the

12 fixed suffix bytes are written, CRC-32 is computed over the image
plus those 12 bytes, its 4 bytes are appended and the 16400 bytes are
written.  Every modelled path returns 0. -/
def run454 (input : List (Nat → Nat)) : RunResult :=
  let st := builderSt input
  if st.out_of_bounds then
    { fileCreated := true, written := none,
      stderrLines := [OUT_OF_BOUNDS_MSG], exitCode := 0 }
  else
    let p := crc14Pass st.image
    if p.2.1 then
      { fileCreated := true, written := none,
        stderrLines := [CRC_OVERLAP_MSG], exitCode := 0 }
    else
      let img12 := suffix12 p.1
      let crc := crc32_calc 0xFFFFFFFF (byteList img12 (PM_SIZE_IN_BYTES + 12))
      let imgF := suffixCrc img12 crc
      { fileCreated := true,
        written := some (byteList imgF (PM_SIZE_IN_BYTES + DFU_SUFFIX)),
        stderrLines := [], exitCode := 0 }

/-- The bytes fwrite receives on the successful path, as a function of
the input: the image after the CRC-14 pass, the 12 fixed suffix bytes,
and the 4 CRC-32 bytes, 16400 bytes in total. -/
def outBytes (input : List (Nat → Nat)) : List Nat :=
  let img12 := suffix12 (crc14Pass (builderSt input).image).1
  byteList
    (suffixCrc img12 (crc32_calc 0xFFFFFFFF (byteList img12 (PM_SIZE_IN_BYTES + 12))))
    (PM_SIZE_IN_BYTES + DFU_SUFFIX)

/-! Concrete input files used by the claim instances below, written as
ASCII codes (0x3A is the colon, 0x30..0x39 the digits, 0x41..0x46 the
upper-case hex letters). -/

/-- One data record of one byte at address 0x0000, below the legal
window: the line ":01000000" (payload digits beyond the supplied
characters decode as 0). -/
def inOOB : List (Nat → Nat) :=
  [lineBuf [0x3A, 0x30, 0x31, 0x30, 0x30, 0x30, 0x30, 0x30, 0x30]]

/-- One data record of one byte 0xAB at address 0x5000: the line
":01500000AB".  0x5000 passes the range check of the program but lies
far beyond the 16400-byte allocation. -/
def inHeap : List (Nat → Nat) :=
  [lineBuf [0x3A, 0x30, 0x31, 0x35, 0x30, 0x30, 0x30, 0x30, 0x30, 0x41, 0x42]]

/-- One data record declaring the maximal byte count 0xFF at address
0x0400: the line ":FF040000".  The payload loop then decodes 255 byte
pairs from line offsets 9..518, far beyond the 256-byte line
buffer. -/
def inLong : List (Nat → Nat) :=
  [lineBuf [0x3A, 0x46, 0x46, 0x30, 0x34, 0x30, 0x30, 0x30, 0x30]]

/-- One data record writing the bytes 0x00 0x00 over the checksum
storage position 0x3EFE/0x3EFF: the line ":023EFE000000". -/
def inSeed : List (Nat → Nat) :=
  [lineBuf [0x3A, 0x30, 0x32, 0x33, 0x45, 0x46, 0x45, 0x30, 0x30, 0x30, 0x30, 0x30, 0x30]]

/-- An extended-linear-address record with value 0:
the line ":000000040000". -/
def line04zero : Nat → Nat :=
  lineBuf [0x3A, 0x30, 0x30, 0x30, 0x30, 0x30, 0x30, 0x30, 0x34, 0x30, 0x30, 0x30, 0x30]

/-- An extended-linear-address record with value 0xAAAA:
the line ":00000004AAAA". -/
def line04nonzero : Nat → Nat :=
  lineBuf [0x3A, 0x30, 0x30, 0x30, 0x30, 0x30, 0x30, 0x30, 0x34, 0x41, 0x41, 0x41, 0x41]

/-- A data record of one byte 0x00 at address 0x0400:
the line ":0104000000". -/
def line00at400 : Nat → Nat :=
  lineBuf [0x3A, 0x30, 0x31, 0x30, 0x34, 0x30, 0x30, 0x30, 0x30, 0x30, 0x30]

/-- The CRC-32 register computed on the successful path: initial value
0xFFFFFFFF folded over the image plus the 12 fixed suffix bytes, with
no final inversion. -/
def crc32OfInput (input : List (Nat → Nat)) : Nat :=
  crc32_calc 0xFFFFFFFF
    (byteList (suffix12 (crc14Pass (builderSt input).image).1) (PM_SIZE_IN_BYTES + 12))

/-! Basic lemmas about the CRC-14 definitions. -/

theorem crc14Fold_eq_foldF (n : Nat) : ∀ (image : Nat → Nat) (addr crc : Nat),
    crc14Fold image addr crc n = crc14FoldF image addr crc n := by
  induction n with
  | zero => intro image addr crc; rfl
  | succ k ih =>
      intro image addr crc
      show crc14Fold image (addr + 2)
          (calc_modified_crc14 (image addr + (image (addr + 1) <<< 8)) crc) k = _
      rw [ih]
      cases h : calc_modified_crc14 (image addr + (image (addr + 1) <<< 8)) crc with
      | zero => simp [crc14FoldF, h]
      | succ m => simp [crc14FoldF, h]

/-- The accumulation only reads the addresses it folds: two images that
agree on the 2n bytes starting at addr fold to the same register. -/
theorem crc14Fold_frame (n : Nat) : ∀ (image image' : Nat → Nat) (addr crc : Nat),
    (∀ a, addr ≤ a → a < addr + 2*n → image a = image' a) →
    crc14Fold image addr crc n = crc14Fold image' addr crc n := by
  induction n with
  | zero => intro image image' addr crc _; rfl
  | succ k ih =>
      intro image image' addr crc h
      show crc14Fold image (addr + 2) _ k = crc14Fold image' (addr + 2) _ k
      rw [h addr (by omega) (by omega), h (addr + 1) (by omega) (by omega)]
      exact ih image image' (addr + 2) _ (fun a ha hb => h a (by omega) (by omega))

/-- The accumulation as a fold over the list of the n little-endian
words read from the image at addresses addr, addr+2, addr+4, ...,
low byte at the even offset. -/
theorem crc14Fold_eq_foldl (n : Nat) : ∀ (image : Nat → Nat) (addr crc : Nat),
    crc14Fold image addr crc n =
      (((List.range' addr n 2).map (fun a => image a + (image (a + 1) <<< 8))).foldl
        (fun c w => calc_modified_crc14 w c) crc) := by
  induction n with
  | zero => intro image addr crc; rfl
  | succ k ih =>
      intro image addr crc
      rw [List.range'_succ]
      show crc14Fold image (addr + 2)
          (calc_modified_crc14 (image addr + (image (addr + 1) <<< 8)) crc) k = _
      rw [ih]
      simp only [List.map_cons, List.foldl_cons]

/-- Running the CRC-14 loop: with the accumulation starting at an
address that reaches the boundary after n+1 steps and enough fuel, the
loop folds n words, checks the storage pair and writes the register at
the final two bytes. -/
theorem crcLoop_run (n : Nat) : ∀ (image : Nat → Nat) (addr crc fuel : Nat),
    addr + 2*n + 2 = 0x3F00 → n < fuel →
    crcLoop image addr crc fuel =
      (wr (wr image (0x3F00 - 2) (crc14Fold image addr crc n &&& 0x00FF))
          (0x3F00 - 1) ((crc14Fold image addr crc n &&& 0xFF00) >>> 8),
       decide (image (0x3F00 - 2) ≠ 0xFF ∨ image (0x3F00 - 1) ≠ 0x3F),
       crc14Fold image addr crc n) := by
  induction n with
  | zero =>
      intro image addr crc fuel ha hf
      match fuel, hf with
      | f+1, _ =>
        have haddr : addr = 0x3F00 - 2 := by omega
        have hcond : addr + 2 = HIGH_ENDURANCE_ADDRESS <<< 1 := by
          simp [HIGH_ENDURANCE_ADDRESS]; omega
        subst haddr
        simp [crcLoop, hcond, crc14Fold]
  | succ k ih =>
      intro image addr crc fuel ha hf
      match fuel, hf with
      | f+1, hf =>
        have hcond : ¬ (addr + 2 = HIGH_ENDURANCE_ADDRESS <<< 1) := by
          simp [HIGH_ENDURANCE_ADDRESS]; omega
        show crcLoop image addr crc (f+1) = _
        rw [show crcLoop image addr crc (f+1) =
              crcLoop image (addr + 2)
                (calc_modified_crc14 (image addr + (image (addr + 1) <<< 8)) crc) f by
              simp [crcLoop, hcond]]
        rw [ih image (addr + 2) _ f (by omega) (by omega)]
        rfl

/-! The golden CRC-14 value of a fully erased window. -/

set_option maxRecDepth 10000 in
set_option maxHeartbeats 4000000 in
theorem crc14FoldF_sentinel : crc14FoldF sentinelByte 0x400 0 7551 = 2950 := by decide

theorem crc14Fold_sentinel : crc14Fold sentinelByte 0x400 0 7551 = 2950 := by
  rw [crc14Fold_eq_foldF]; exact crc14FoldF_sentinel

/-- Closed form of the CRC-14 pass: it folds the 7551 words at byte
addresses 0x400, 0x402, ..., 0x3EFC, checks the storage pair at
0x3EFE/0x3EFF against the sentinel, and writes the final register
there low byte first. -/
theorem crc14Pass_eq (image : Nat → Nat) :
    crc14Pass image =
      (wr (wr image 0x3EFE (crc14Fold image 0x400 0 7551 &&& 0x00FF))
          0x3EFF ((crc14Fold image 0x400 0 7551 &&& 0xFF00) >>> 8),
       decide (image 0x3EFE ≠ 0xFF ∨ image 0x3EFF ≠ 0x3F),
       crc14Fold image 0x400 0 7551) := by
  have h : crc14Pass image = crcLoop image 0x400 0 8000 := by
    show crcLoop image (CODE_OFFSET_ADDRESS <<< 1) 0 8000 = _
    norm_num [CODE_OFFSET_ADDRESS, Nat.shiftLeft_eq]
  rw [h, crcLoop_run 7551 image 0x400 0 8000 (by norm_num) (by norm_num)]

/-! Bit-level helper lemmas over Nat. -/

theorem xor_shiftRight (x y k : Nat) : (x ^^^ y) >>> k = (x >>> k) ^^^ (y >>> k) := by
  apply Nat.eq_of_testBit_eq
  intro i
  simp [Nat.testBit_shiftRight, Nat.testBit_xor]

theorem xor_xor_cancel (a b p : Nat) : (a ^^^ p) ^^^ (b ^^^ p) = a ^^^ b := by
  rw [Nat.xor_assoc]
  congr 1
  rw [Nat.xor_comm b p, ← Nat.xor_assoc, Nat.xor_self, Nat.zero_xor]

/-- The bit pattern of the mask 255. -/
theorem testBit_255 (i : Nat) : Nat.testBit 255 i = decide (i < 8) := by
  rw [show (255:Nat) = 2^8 - 1 by norm_num, Nat.testBit_two_pow_sub_one]

/-- Decomposition of a Nat into its low 8 bits and the rest. -/
theorem low_high_decomp (u : Nat) : u = (u &&& 255) ^^^ ((u >>> 8) <<< 8) := by
  apply Nat.eq_of_testBit_eq
  intro i
  by_cases hi : i < 8
  · have h8 : ¬ (8 ≤ i) := by omega
    simp [Nat.testBit_xor, Nat.testBit_and, testBit_255,
      Nat.testBit_shiftLeft, Nat.testBit_shiftRight, hi, h8]
  · have h8 : 8 ≤ i := by omega
    simp [Nat.testBit_xor, Nat.testBit_and, testBit_255,
      Nat.testBit_shiftLeft, Nat.testBit_shiftRight, hi, h8,
      show 8 + (i - 8) = i by omega]

/-- Shifting a masked field down: (c AND (255 << k)) >> k equals
(c >> k) AND 255. -/
theorem mask_shift (c k : Nat) : (c &&& (255 <<< k)) >>> k = (c >>> k) &&& 255 := by
  apply Nat.eq_of_testBit_eq
  intro i
  have hk : k ≤ k + i := by omega
  simp [Nat.testBit_shiftRight, Nat.testBit_and, Nat.testBit_shiftLeft,
    testBit_255, hk, show k + i - k = i by omega]

/-! The table-driven CRC-32 step agrees with the bitwise definition. -/

theorem xor_left_comm (a b c : Nat) : a ^^^ (b ^^^ c) = b ^^^ (a ^^^ c) := by
  rw [← Nat.xor_assoc, Nat.xor_comm a b, Nat.xor_assoc]

theorem xor_cancel_left (a b : Nat) : a ^^^ (a ^^^ b) = b := by
  rw [← Nat.xor_assoc, Nat.xor_self, Nat.zero_xor]

theorem crcBit_xor (x y : Nat) : crcBit (x ^^^ y) = crcBit x ^^^ crcBit y := by
  unfold crcBit
  have hxy : (x ^^^ y) &&& 1 = (x &&& 1) ^^^ (y &&& 1) := Nat.and_xor_distrib_right
  have hx : x &&& 1 = x % 2 := Nat.and_one_is_mod x
  have hy : y &&& 1 = y % 2 := Nat.and_one_is_mod y
  have hsh : (x ^^^ y) >>> 1 = (x >>> 1) ^^^ (y >>> 1) := xor_shiftRight x y 1
  rcases Nat.mod_two_eq_zero_or_one x with h1 | h1 <;>
    rcases Nat.mod_two_eq_zero_or_one y with h2 | h2 <;>
      simp [hxy, hx, hy, h1, h2, hsh, Nat.xor_assoc, Nat.xor_comm, xor_left_comm,
        xor_cancel_left, Nat.xor_self, Nat.xor_zero, Nat.zero_xor]

theorem crcBitN_xor (n : Nat) : ∀ x y, crcBitN n (x ^^^ y) = crcBitN n x ^^^ crcBitN n y := by
  induction n with
  | zero => intro x y; rfl
  | succ k ih =>
      intro x y
      show crcBitN k (crcBit (x ^^^ y)) = _
      rw [crcBit_xor, ih]
      rfl

theorem crcBitN_shiftLeft (n : Nat) : ∀ x, crcBitN n (x <<< n) = x := by
  induction n with
  | zero => intro x; rfl
  | succ k ih =>
      intro x
      show crcBitN k (crcBit (x <<< (k+1))) = x
      have heven : (x <<< (k+1)) &&& 1 = 0 := by
        rw [Nat.and_one_is_mod, Nat.shiftLeft_eq, Nat.pow_succ, ← Nat.mul_assoc,
          Nat.mul_mod_left]
      have hsh : (x <<< (k+1)) >>> 1 = x <<< k := by
        rw [Nat.shiftLeft_eq, Nat.shiftLeft_eq, Nat.pow_succ, ← Nat.mul_assoc,
          Nat.shiftRight_succ, Nat.shiftRight_zero, Nat.mul_div_cancel _ (by omega)]
      rw [show crcBit (x <<< (k+1)) = x <<< k by unfold crcBit; rw [heven]; simp [hsh]]
      exact ih x

set_option maxRecDepth 4000 in
theorem crc32_table_ok : ∀ i, i < 256 → crc32_table.getD i 0 = crcBitN 8 i := by decide

theorem crc32_step_eq_bit (crc b : Nat) (hb : b < 256) :
    crc32_step crc b = crc32_bit_byte crc b := by
  unfold crc32_step crc32_bit_byte
  have hidx : (crc ^^^ b) &&& 0xFF < 256 :=
    Nat.lt_of_le_of_lt Nat.and_le_right (by norm_num)
  rw [crc32_table_ok _ hidx]
  conv_rhs => rw [low_high_decomp (crc ^^^ b)]
  rw [crcBitN_xor, crcBitN_shiftLeft]
  congr 1
  rw [xor_shiftRight, show b >>> 8 = 0 by
    rw [Nat.shiftRight_eq_div_pow]; exact Nat.div_eq_of_lt (by omega), Nat.xor_zero]

/-! CRC-14 register bounds and byte reassembly. -/

theorem crc14Iter_lt (n : Nat) : ∀ data crc, crc < 0x4000 → crc14Iter n data crc < 0x4000 := by
  induction n with
  | zero => intro data crc h; exact h
  | succ k ih =>
      intro data crc h
      show crc14Iter k (data >>> 1) _ < 0x4000
      apply ih
      have h1 : crc >>> 1 < 0x4000 := by
        rw [Nat.shiftRight_succ, Nat.shiftRight_zero]; omega
      split
      · have : (0x4000 : Nat) = 2^14 := by norm_num
        rw [this] at h1 ⊢
        exact Nat.xor_lt_two_pow h1 (by norm_num)
      · exact h1

theorem calc_modified_crc14_lt (data crc : Nat) (h : crc < 0x4000) :
    calc_modified_crc14 data crc < 0x4000 := crc14Iter_lt 16 data crc h

theorem crc14Fold_lt (n : Nat) : ∀ (image : Nat → Nat) (addr crc : Nat),
    crc < 0x4000 → crc14Fold image addr crc n < 0x4000 := by
  induction n with
  | zero => intro image addr crc h; exact h
  | succ k ih =>
      intro image addr crc h
      exact ih image (addr + 2) _ (calc_modified_crc14_lt _ _ h)

/-- A 16-bit value split into the two bytes the program stores is
reassembled exactly, low byte plus high byte shifted left 8. -/
theorem byte_reassemble (c : Nat) (h : c < 65536) :
    (c &&& 0x00FF) + (((c &&& 0xFF00) >>> 8) <<< 8) = c := by
  have h1 : c &&& 0x00FF = c % 256 := by
    rw [show (0x00FF : Nat) = 2^8 - 1 by norm_num, Nat.and_pow_two_sub_one_eq_mod]
  have h2 : (c &&& 0xFF00) >>> 8 = (c >>> 8) &&& 255 := by
    rw [show (0xFF00 : Nat) = 255 <<< 8 by rw [Nat.shiftLeft_eq]]
    exact mask_shift c 8
  have h3 : (c >>> 8) &&& 255 = c / 256 % 256 := by
    rw [show (255 : Nat) = 2^8 - 1 by norm_num, Nat.and_pow_two_sub_one_eq_mod,
      Nat.shiftRight_eq_div_pow]
  rw [h1, h2, h3, Nat.shiftLeft_eq, show (2:Nat)^8 = 256 by norm_num]
  omega

/-! The source iteration of calc_modified_crc14 and the iteration in
the order the spec states it agree. -/

theorem crc14Iter_eq_spec (n : Nat) : ∀ data crc, crc14Iter n data crc = crc14SpecIter n data crc := by
  induction n with
  | zero => intro data crc; rfl
  | succ k ih =>
      intro data crc
      show crc14Iter k (data >>> 1) _ = crc14SpecIter k (data >>> 1) _
      rw [ih]

/-! Access lemmas for byte lists. -/

theorem byteList_length (f : Nat → Nat) (n : Nat) : (byteList f n).length = n := by
  simp [byteList]

theorem byteList_getD (f : Nat → Nat) (n i : Nat) (h : i < n) :
    (byteList f n).getD i 0 = f i := by
  rw [byteList, List.getD_eq_getElem?_getD, List.getElem?_map, List.getElem?_range h]
  rfl

theorem byteList_succ (f : Nat → Nat) (n : Nat) :
    byteList f (n+1) = byteList f n ++ [f n] := by
  simp [byteList, List.range_succ]

theorem byteList_congr (f g : Nat → Nat) (n : Nat) (h : ∀ i, i < n → f i = g i) :
    byteList f n = byteList g n := by
  unfold byteList
  apply List.map_congr_left
  intro a ha
  exact h a (List.mem_range.mp ha)

/-- The register produced by the CRC-14 pass, as a fold over the words
at byte addresses 0x400, 0x402, ..., 0x3EFC. -/
theorem crc14Pass_words (image : Nat → Nat) :
    (crc14Pass image).2.2 =
      (((List.range' 0x400 7551 2).map (fun a => image a + (image (a + 1) <<< 8))).foldl
        (fun c w => calc_modified_crc14 w c) 0) := by
  exact Eq.trans (by rw [crc14Pass_eq]) (crc14Fold_eq_foldl 7551 image 0x400 0)

/-! Closed forms of run454 on its three paths. -/

theorem run454_oob (input : List (Nat → Nat))
    (h1 : (builderSt input).out_of_bounds = true) :
    run454 input =
      { fileCreated := true, written := none,
        stderrLines := [OUT_OF_BOUNDS_MSG], exitCode := 0 } := by
  simp [run454, h1]

theorem run454_overlap (input : List (Nat → Nat))
    (h1 : (builderSt input).out_of_bounds = false)
    (h2 : (crc14Pass (builderSt input).image).2.1 = true) :
    run454 input =
      { fileCreated := true, written := none,
        stderrLines := [CRC_OVERLAP_MSG], exitCode := 0 } := by
  simp [run454, h1, h2]

theorem run454_success (input : List (Nat → Nat))
    (h1 : (builderSt input).out_of_bounds = false)
    (h2 : (crc14Pass (builderSt input).image).2.1 = false) :
    run454 input =
      { fileCreated := true, written := some (outBytes input),
        stderrLines := [], exitCode := 0 } := by
  simp [run454, outBytes, h1, h2]

/-! Splitting the output bytes into the CRC-32 input and the four CRC
bytes. -/

theorem suffixCrc_low (f : Nat → Nat) (c i : Nat) (h : i < 16396) :
    suffixCrc f c i = f i := by
  simp only [suffixCrc, wr, PM_SIZE_IN_BYTES]
  rw [if_neg (by omega), if_neg (by omega), if_neg (by omega), if_neg (by omega)]

theorem outBytes_split (input : List (Nat → Nat)) :
    outBytes input =
      byteList (suffix12 (crc14Pass (builderSt input).image).1) 16396 ++
        [((crc32OfInput input) &&& 0x000000FF) >>> 0,
         ((crc32OfInput input) &&& 0x0000FF00) >>> 8,
         ((crc32OfInput input) &&& 0x00FF0000) >>> 16,
         ((crc32OfInput input) &&& 0xFF000000) >>> 24] := by
  unfold outBytes crc32OfInput
  rw [show PM_SIZE_IN_BYTES + DFU_SUFFIX = 16400 from rfl,
    show (16400 : Nat) = 16399 + 1 from rfl, byteList_succ,
    show (16399 : Nat) = 16398 + 1 from rfl, byteList_succ,
    show (16398 : Nat) = 16397 + 1 from rfl, byteList_succ,
    show (16397 : Nat) = 16396 + 1 from rfl, byteList_succ]
  rw [byteList_congr _ _ 16396 (fun i hi => suffixCrc_low _ _ i hi)]
  simp only [List.append_assoc, List.cons_append, List.nil_append,
    show PM_SIZE_IN_BYTES + 12 = 16396 from rfl]
  congr 1

theorem outBytes_take (input : List (Nat → Nat)) :
    (outBytes input).take 16396 =
      byteList (suffix12 (crc14Pass (builderSt input).image).1) (PM_SIZE_IN_BYTES + 12) := by
  rw [outBytes_split]
  exact List.take_left' (by rw [byteList_length])

theorem crc32OfInput_take (input : List (Nat → Nat)) :
    crc32_calc 0xFFFFFFFF ((outBytes input).take 16396) = crc32OfInput input := by
  rw [outBytes_take]
  rfl

/-! The four serialized bytes of the CRC-32 register in canonical
little-endian form. -/

theorem crcByteLo (c : Nat) : (c &&& 0x000000FF) >>> 0 = c % 256 := by
  rw [Nat.shiftRight_zero, show (0x000000FF : Nat) = 2^8 - 1 by norm_num,
    Nat.and_pow_two_sub_one_eq_mod]

theorem crcByteMid1 (c : Nat) : (c &&& 0x0000FF00) >>> 8 = c / 256 % 256 := by
  rw [show (0x0000FF00 : Nat) = 255 <<< 8 by rw [Nat.shiftLeft_eq], mask_shift,
    Nat.shiftRight_eq_div_pow, show (255 : Nat) = 2^8 - 1 by norm_num,
    Nat.and_pow_two_sub_one_eq_mod]

theorem crcByteMid2 (c : Nat) : (c &&& 0x00FF0000) >>> 16 = c / 65536 % 256 := by
  rw [show (0x00FF0000 : Nat) = 255 <<< 16 by rw [Nat.shiftLeft_eq], mask_shift,
    Nat.shiftRight_eq_div_pow, show (255 : Nat) = 2^8 - 1 by norm_num,
    Nat.and_pow_two_sub_one_eq_mod]

theorem crcByteHi (c : Nat) : (c &&& 0xFF000000) >>> 24 = c / 16777216 % 256 := by
  rw [show (0xFF000000 : Nat) = 255 <<< 24 by rw [Nat.shiftLeft_eq], mask_shift,
    Nat.shiftRight_eq_div_pow, show (255 : Nat) = 2^8 - 1 by norm_num,
    Nat.and_pow_two_sub_one_eq_mod]

theorem outBytes_drop (input : List (Nat → Nat)) :
    (outBytes input).drop 16396 =
      [crc32OfInput input % 256,
       crc32OfInput input / 256 % 256,
       crc32OfInput input / 65536 % 256,
       crc32OfInput input / 16777216 % 256] := by
  rw [outBytes_split, List.drop_left' (by rw [byteList_length]),
    crcByteLo, crcByteMid1, crcByteMid2, crcByteHi]

theorem outBytes_getD_low (input : List (Nat → Nat)) (i : Nat) (h : i < 16396) :
    (outBytes input).getD i 0 = suffix12 (crc14Pass (builderSt input).image).1 i := by
  unfold outBytes
  rw [byteList_getD _ _ i (by simp only [PM_SIZE_IN_BYTES, DFU_SUFFIX]; omega)]
  exact suffixCrc_low _ _ i h

theorem wr_same (g : Nat → Nat) (i v : Nat) : wr g i v i = v := by
  simp [wr]

theorem wr_other (g : Nat → Nat) (i v j : Nat) (h : j ≠ i) : wr g i v j = g j := by
  simp [wr, h]

/-! The claims. -/

/-- C1: the claim says that every data-record byte whose running
address a lies in [0x400, 0x8000) is written at offset a with
out_of_bounds left clear, and that every such write lands inside the
allocated buffer of 16384 + 16 bytes.  The first part matches the
code, but the bound does not: on the input inHeap (one data byte 0xAB
at address 0x5000) the program performs the write at offset
0x5000 = 20480 of the 16400-byte allocation, out_of_bounds stays
false, and 20480 is not below 16400 — a heap overflow the range check
of line 109 fails to prevent. -/
theorem claim_C1_window_write_overflows :
    (builderSt inHeap).out_of_bounds = false ∧
    (builderSt inHeap).image 0x5000 = 0xAB ∧
    (builderSt inHeap).writeLog = [0x5000] ∧
    ¬ (0x5000 < PM_SIZE_IN_BYTES + DFU_SUFFIX) := by
  refine ⟨by decide, by decide, by decide, by decide⟩

set_option maxRecDepth 40000 in
/-- C10: the claim says payload decoding reads only line offsets
9 .. 9 + 2*byte_count - 1 and that every such offset lies inside the
256-character line buffer for every byte_count up to 0xFF.  The first
part matches the code (the ghost read log of the input inLong, one
data record with byte count 0xFF, stays within those offsets), but
offset 9 + 2*0xFF - 1 = 518 is actually read and is not below 256:
the decode loop runs far past the line buffer. -/
theorem claim_C10_line_buffer_overread :
    (builderSt inLong).out_of_bounds = false ∧
    ((builderSt inLong).readLog.all
      (fun i => decide (9 ≤ i) && decide (i ≤ 9 + 2 * 0xFF - 1)) = true) ∧
    (518 ∈ (builderSt inLong).readLog) ∧
    ¬ (518 < 256) := by
  refine ⟨by decide, by decide, by decide, by decide⟩

/-- C2 counterexample: the claim says a failed validation produces no
output file at the given output path.  On the input inOOB validation
fails (out_of_bounds is set), yet a file exists at the output path:
main opens the output with fopen mode wb (creating or truncating the
file) before any record is parsed, and the skip_write path never
removes it — only the fwrite is skipped. -/
theorem claim_C2_counterexample :
    (builderSt inOOB).out_of_bounds = true ∧
    (run454 inOOB).fileCreated = true ∧
    (run454 inOOB).written = none := by
  refine ⟨by decide, by decide, by decide⟩

/-- C2 amended: when validation fails (out_of_bounds after the reading
pass, or crc_overlap in the CRC-14 pass), the program prints exactly
one diagnostic to standard error, writes no bytes (the output file,
already created and truncated by the early fopen, is left empty), and
exits with status 0. -/
theorem claim_C2_failure_behavior : ∀ input : List (Nat → Nat),
    ((builderSt input).out_of_bounds = true ∨
      ((builderSt input).out_of_bounds = false ∧
        (crc14Pass (builderSt input).image).2.1 = true)) →
    (run454 input).stderrLines.length = 1 ∧
    (run454 input).written = none ∧
    (run454 input).fileCreated = true ∧
    (run454 input).exitCode = 0 := by
  intro input h
  rcases h with h1 | ⟨h1, h2⟩
  · rw [run454_oob input h1]
    exact ⟨rfl, rfl, rfl, rfl⟩
  · rw [run454_overlap input h1 h2]
    exact ⟨rfl, rfl, rfl, rfl⟩

/-- C2 witness: the amended failure behavior at the concrete input
inOOB. -/
theorem claim_C2_failure_behavior_witness :
    ((builderSt inOOB).out_of_bounds = true ∨
      ((builderSt inOOB).out_of_bounds = false ∧
        (crc14Pass (builderSt inOOB).image).2.1 = true)) ∧
    ((run454 inOOB).stderrLines.length = 1 ∧
     (run454 inOOB).written = none ∧
     (run454 inOOB).fileCreated = true ∧
     (run454 inOOB).exitCode = 0) :=
  ⟨Or.inl (by decide), claim_C2_failure_behavior inOOB (Or.inl (by decide))⟩

/-- C3: the CRC-14 pass folds successive 16-bit little-endian words in
2-byte steps over the window starting at byte offset 0x400 (word
address 0x200) whose last folded word sits just below the
high-endurance boundary 0x3F00 (word address 0x1F80); over any image
that is fully sentinel on the window 0x400..0x3EFF the register is
the fixed value 2950; and the final register is stored low byte first
at the final 2-byte position 0x3EFE/0x3EFF of the window. -/
theorem claim_C3_crc14_pass : ∀ image : Nat → Nat,
    ((crc14Pass image).2.2 =
      (((List.range' 0x400 7551 2).map (fun a => image a + (image (a + 1) <<< 8))).foldl
        (fun c w => calc_modified_crc14 w c) 0)) ∧
    ((∀ a, 0x400 ≤ a → a < 0x3F00 → image a = sentinelByte a) →
      (crc14Pass image).2.2 = 2950) ∧
    ((crc14Pass image).1 0x3EFE = ((crc14Pass image).2.2 &&& 0x00FF) ∧
     (crc14Pass image).1 0x3EFF = (((crc14Pass image).2.2 &&& 0xFF00) >>> 8)) := by
  intro image
  refine ⟨crc14Pass_words image, ?_, ?_, ?_⟩
  · intro h
    have hfr : crc14Fold image 0x400 0 7551 = crc14Fold sentinelByte 0x400 0 7551 :=
      crc14Fold_frame 7551 image sentinelByte 0x400 0
        (fun a ha hb => h a ha (by omega))
    exact Eq.trans (Eq.trans (by rw [crc14Pass_eq]) hfr) crc14Fold_sentinel
  · rw [crc14Pass_eq]
    dsimp only
    rw [wr_other _ _ _ _ (by decide), wr_same]
  · rw [crc14Pass_eq]
    dsimp only
    rw [wr_same]

/-- C3 witness: the pass over the sentinel image itself computes the
golden register value. -/
theorem claim_C3_crc14_pass_witness : (crc14Pass sentinelByte).2.2 = 2950 :=
  (claim_C3_crc14_pass sentinelByte).2.1 (fun _ _ _ => rfl)

/-- C4: calc_modified_crc14 equals 16 iterations of the step exactly
as the spec sentence orders it (bit from the low bits of data and crc,
shift crc, shift data, conditional xor with 0x23B1), and the word fed
to it at each step of the pass is assembled little-endian from the
buffer, low byte at the even offset. -/
theorem claim_C4_crc14_step :
    (∀ data crc : Nat, calc_modified_crc14 data crc = crc14SpecIter 16 data crc) ∧
    (∀ image : Nat → Nat, (crc14Pass image).2.2 =
      (((List.range' 0x400 7551 2).map (fun a => image a + (image (a + 1) <<< 8))).foldl
        (fun c w => calc_modified_crc14 w c) 0)) :=
  ⟨fun data crc => crc14Iter_eq_spec 16 data crc, crc14Pass_words⟩

/-- C5: on the successful path the program writes outBytes, whose last
4 bytes are the little-endian serialization of the CRC-32 register
obtained by folding crc32_step from the initial value 0xFFFFFFFF over
the first 16396 bytes of the output (the 16384 program-memory bytes
followed by the 12 fixed suffix bytes), with no final inversion; and
the table-driven step is bit-identical to the bitwise
reflected-polynomial computation on every byte. -/
theorem claim_C5_crc32_output : ∀ input : List (Nat → Nat),
    (builderSt input).out_of_bounds = false →
    (crc14Pass (builderSt input).image).2.1 = false →
    ((run454 input).written = some (outBytes input) ∧
     (outBytes input).drop 16396 =
       [crc32_calc 0xFFFFFFFF ((outBytes input).take 16396) % 256,
        crc32_calc 0xFFFFFFFF ((outBytes input).take 16396) / 256 % 256,
        crc32_calc 0xFFFFFFFF ((outBytes input).take 16396) / 65536 % 256,
        crc32_calc 0xFFFFFFFF ((outBytes input).take 16396) / 16777216 % 256]) ∧
    (∀ crc b : Nat, b < 256 → crc32_step crc b = crc32_bit_byte crc b) := by
  intro input h1 h2
  refine ⟨⟨?_, ?_⟩, fun crc b hb => crc32_step_eq_bit crc b hb⟩
  · rw [run454_success input h1 h2]
  · rw [crc32OfInput_take, outBytes_drop]

/-- C5 witness: the serialization and the step identity at the empty
input (which passes validation) and at the byte 0xAB. -/
theorem claim_C5_crc32_output_witness :
    ((run454 []).written = some (outBytes []) ∧
     (outBytes []).drop 16396 =
       [crc32_calc 0xFFFFFFFF ((outBytes []).take 16396) % 256,
        crc32_calc 0xFFFFFFFF ((outBytes []).take 16396) / 256 % 256,
        crc32_calc 0xFFFFFFFF ((outBytes []).take 16396) / 65536 % 256,
        crc32_calc 0xFFFFFFFF ((outBytes []).take 16396) / 16777216 % 256]) ∧
    crc32_step 0xFFFFFFFF 0xAB = crc32_bit_byte 0xFFFFFFFF 0xAB := by
  have h := claim_C5_crc32_output [] (by decide) (by rw [crc14Pass_eq]; decide)
  exact ⟨h.1, h.2 0xFFFFFFFF 0xAB (by norm_num)⟩

/-- C6: crc_overlap is set by the pass exactly when the stored byte
pair at the checksum position 0x3EFE/0x3EFF differs from the erased
sentinel pair 0xFF, 0x3F at the moment the pass reaches it (the pass
reads but never writes before that moment); and any input whose
reading pass ends without out_of_bounds but with that position
differing from the sentinel has its output suppressed with the
overlap diagnostic. -/
theorem claim_C6_overlap : ∀ (image : Nat → Nat) (input : List (Nat → Nat)),
    ((crc14Pass image).2.1 = true ↔ (image 0x3EFE ≠ 0xFF ∨ image 0x3EFF ≠ 0x3F)) ∧
    ((builderSt input).out_of_bounds = false →
      ((builderSt input).image 0x3EFE ≠ 0xFF ∨ (builderSt input).image 0x3EFF ≠ 0x3F) →
      (run454 input).written = none ∧
      (run454 input).stderrLines = [CRC_OVERLAP_MSG]) := by
  intro image input
  constructor
  · rw [crc14Pass_eq]
    dsimp only
    exact decide_eq_true_iff
  · intro h1 h2
    have hov : (crc14Pass (builderSt input).image).2.1 = true := by
      rw [crc14Pass_eq]
      dsimp only
      exact decide_eq_true h2
    rw [run454_overlap input h1 hov]
    exact ⟨rfl, rfl⟩

/-- C6 witness: the input inSeed writes the pair 0x00 0x00 over the
checksum position; the overlap characterization and the suppression
both apply to it. -/
theorem claim_C6_overlap_witness :
    ((crc14Pass (builderSt inSeed).image).2.1 = true ↔
      ((builderSt inSeed).image 0x3EFE ≠ 0xFF ∨ (builderSt inSeed).image 0x3EFF ≠ 0x3F)) ∧
    ((run454 inSeed).written = none ∧
     (run454 inSeed).stderrLines = [CRC_OVERLAP_MSG]) :=
  ⟨(claim_C6_overlap (builderSt inSeed).image inSeed).1,
   (claim_C6_overlap (builderSt inSeed).image inSeed).2 (by decide) (by decide)⟩

/-- C7: on every successful conversion the program writes exactly
16384 + 16 = 16400 bytes, and the twelve bytes at offsets
16384..16395 are the fixed DFU suffix fields: bcdDevice 0xFF 0xFF,
idProduct 0x0001 little-endian, idVendor 0x1234 little-endian, bcdDFU
0x0100, the signature characters U F D, and bLength 16. -/
theorem claim_C7_suffix_bytes : ∀ input : List (Nat → Nat),
    (builderSt input).out_of_bounds = false →
    (crc14Pass (builderSt input).image).2.1 = false →
    (run454 input).written = some (outBytes input) ∧
    (outBytes input).length = 16384 + 16 ∧
    ((outBytes input).getD 16384 0 = 0xFF ∧ (outBytes input).getD 16385 0 = 0xFF ∧
     (outBytes input).getD 16386 0 = 0x01 ∧ (outBytes input).getD 16387 0 = 0x00 ∧
     (outBytes input).getD 16388 0 = 0x34 ∧ (outBytes input).getD 16389 0 = 0x12 ∧
     (outBytes input).getD 16390 0 = 0x00 ∧ (outBytes input).getD 16391 0 = 0x01 ∧
     (outBytes input).getD 16392 0 = 0x55 ∧ (outBytes input).getD 16393 0 = 0x46 ∧
     (outBytes input).getD 16394 0 = 0x44 ∧ (outBytes input).getD 16395 0 = 0x10) := by
  intro input h1 h2
  refine ⟨by rw [run454_success input h1 h2], Eq.trans (byteList_length _ _) rfl,
    ?_, ?_, ?_, ?_, ?_, ?_, ?_, ?_, ?_, ?_, ?_, ?_⟩ <;>
  · rw [outBytes_getD_low input _ (by norm_num)]
    rfl

/-- C7 witness: the empty input passes validation; its output has the
full length and the twelve fixed suffix bytes. -/
theorem claim_C7_suffix_bytes_witness :
    (run454 []).written = some (outBytes []) ∧
    (outBytes []).length = 16384 + 16 ∧
    ((outBytes []).getD 16384 0 = 0xFF ∧ (outBytes []).getD 16385 0 = 0xFF ∧
     (outBytes []).getD 16386 0 = 0x01 ∧ (outBytes []).getD 16387 0 = 0x00 ∧
     (outBytes []).getD 16388 0 = 0x34 ∧ (outBytes []).getD 16389 0 = 0x12 ∧
     (outBytes []).getD 16390 0 = 0x00 ∧ (outBytes []).getD 16391 0 = 0x01 ∧
     (outBytes []).getD 16392 0 = 0x55 ∧ (outBytes []).getD 16393 0 = 0x46 ∧
     (outBytes []).getD 16394 0 = 0x44 ∧ (outBytes []).getD 16395 0 = 0x10) :=
  claim_C7_suffix_bytes [] (by decide) (by rw [crc14Pass_eq]; decide)

/-- C8: for a record line (first character the colon), a type-00
record is applied through the data loop (which can set out_of_bounds)
exactly when upper_address is zero; a type-04 record replaces
upper_address with the four hex digits at offset 9 (so a later
type-04 record with value zero re-enables data records); and a
type-00 record arriving while upper_address is non-zero leaves the
whole state — buffer and flags included — unchanged. -/
theorem claim_C8_record_dispatch : ∀ (st : St) (l : Nat → Nat),
    l 0 = 0x3A →
    ((l 7 = 0x30 ∧ l 8 = 0x30 ∧ st.upper_address = 0 →
        applyLine st l = (dataLoop l (readhex l 3 4) 9 (readhex l 1 2) st, false)) ∧
     (l 7 = 0x30 ∧ l 8 = 0x34 →
        applyLine st l = ({ st with upper_address := readhex l 9 4 }, false)) ∧
     (l 7 = 0x30 ∧ l 8 = 0x30 ∧ st.upper_address ≠ 0 →
        applyLine st l = (st, false))) := by
  intro st l h0
  refine ⟨?_, ?_, ?_⟩
  · rintro ⟨h7, h8, hu⟩
    simp [applyLine, h0, h7, h8, hu]
  · rintro ⟨h7, h8⟩
    simp [applyLine, h0, h7, h8]
  · rintro ⟨h7, h8, hu⟩
    simp [applyLine, h0, h7, h8, hu]

/-- C8 witness: the three dispatch cases at concrete states and lines,
plus the decoded upper_address values of the two type-04 lines. -/
theorem claim_C8_record_dispatch_witness :
    (applyLine initSt line00at400 =
      (dataLoop line00at400 (readhex line00at400 3 4) 9 (readhex line00at400 1 2) initSt,
       false)) ∧
    (applyLine initSt line04nonzero =
      ({ initSt with upper_address := readhex line04nonzero 9 4 }, false)) ∧
    (applyLine { initSt with upper_address := 0xAAAA } line00at400 =
      ({ initSt with upper_address := 0xAAAA }, false)) ∧
    readhex line04zero 9 4 = 0 ∧ readhex line04nonzero 9 4 = 0xAAAA :=
  ⟨(claim_C8_record_dispatch initSt line00at400 (by decide)).1
      ⟨by decide, by decide, rfl⟩,
   (claim_C8_record_dispatch initSt line04nonzero (by decide)).2.1
      ⟨by decide, by decide⟩,
   (claim_C8_record_dispatch { initSt with upper_address := 0xAAAA } line00at400
      (by decide)).2.2 ⟨by decide, by decide, by decide⟩,
   by decide, by decide⟩

/-- C9: one application of calc_modified_crc14 keeps the register
below 2^14 whenever it starts below 2^14; since the pass starts from
register 0, the stored checksum word (low byte at 0x3EFE plus high
byte at 0x3EFF shifted left 8) reassembles to the final register and
fits in 14 bits. -/
theorem claim_C9_register_bound :
    (∀ data crc : Nat, crc < 0x4000 → calc_modified_crc14 data crc < 0x4000) ∧
    (∀ image : Nat → Nat,
      (crc14Pass image).2.2 < 0x4000 ∧
      (crc14Pass image).1 0x3EFE + ((crc14Pass image).1 0x3EFF <<< 8) =
        (crc14Pass image).2.2) := by
  constructor
  · exact fun data crc h => calc_modified_crc14_lt data crc h
  · intro image
    have hlt : crc14Fold image 0x400 0 7551 < 0x4000 :=
      crc14Fold_lt 7551 image 0x400 0 (by norm_num)
    constructor
    · rw [crc14Pass_eq]
      dsimp only
      exact hlt
    · rw [crc14Pass_eq]
      dsimp only
      rw [wr_other _ _ _ _ (by decide), wr_same, wr_same]
      exact byte_reassemble _ (by omega)

/-- C9 witness: the register bound at a concrete word and the stored
pair reassembly over the sentinel image. -/
theorem claim_C9_register_bound_witness :
    calc_modified_crc14 0x3FFF 0 < 0x4000 ∧
    ((crc14Pass sentinelByte).2.2 < 0x4000 ∧
     (crc14Pass sentinelByte).1 0x3EFE + ((crc14Pass sentinelByte).1 0x3EFF <<< 8) =
       (crc14Pass sentinelByte).2.2) :=
  ⟨claim_C9_register_bound.1 0x3FFF 0 (by norm_num), claim_C9_register_bound.2 sentinelByte⟩
